import Mathlib

/-!
# Verification of the bfx-api message-dispatch core

Shallow embedding of the repository's three source modules:

* `Expectations` (`src/Expectations.ts`): two ordered collections of
  (predicate, handler) pairs — consume-once and persistent — with ordered
  dispatch (`exec`, `execOne`, `execWhenever`).
* `ActionsStack` (`dist/ActionsStack.js`): an ordered queue of deferred
  actions with `add`, `fire` (JavaScript `Array.prototype.forEach`
  captures the length at the start of the iteration, so actions appended
  while firing are never visited; `reject` then clears the whole array)
  and `reject`.
* `BfxApi` (`src/BfxApi.ts`): the connection controller owning one
  registry and one queue, with the pause/resume/restart machine, the
  gated `send`, and the conversation helpers (`ping`, `subscribe`,
  `unsubscribe`, `handleMessage`).

JavaScript-specific behaviour is modelled explicitly: object identity of
`new Expectation(...)` becomes a fresh numeric id `eid` handed out by the
registry, strict equality `===` becomes `jsEq` (reference comparisons of
two distinct heap objects are `false`), truthiness becomes `truthy`, and
handlers — which close over the controller — are defunctionalised into the
`Handler` type interpreted by `BfxApi.runHandler`.
-/

/-- One registered expectation: a predicate and a handler
(`class Expectation { constructor(match, process) }`).  The field `eid`
models the JavaScript object identity of a `new Expectation(...)`:
the registry hands out a fresh id at each registration, so `exp !== exp0`
in the source is `exp.eid != exp0.eid` here. -/
structure Expectation (Msg H : Type) where
  eid : Nat
  matchFn : Msg → Bool
  process : H

/-- The registry: once-list, whenever-list and the next fresh identity
(`expectationsOnce`, `expectationsWhenever` in the source; both start
empty in the constructor). -/
structure Expectations (Msg H : Type) where
  expectationsOnce : List (Expectation Msg H)
  expectationsWhenever : List (Expectation Msg H)
  nextId : Nat

/-- `new Expectations()`: both lists empty. -/
def Expectations.empty {Msg H : Type} : Expectations Msg H :=
  { expectationsOnce := [], expectationsWhenever := [], nextId := 0 }

/-- `once(match, process)`: push a fresh expectation onto the once-list. -/
def Expectations.once {Msg H : Type} (E : Expectations Msg H)
    (m : Msg → Bool) (p : H) : Expectations Msg H :=
  { E with
    expectationsOnce := E.expectationsOnce ++ [⟨E.nextId, m, p⟩],
    nextId := E.nextId + 1 }

/-- `whenever(match, process)`: push a fresh expectation onto the
whenever-list. -/
def Expectations.whenever {Msg H : Type} (E : Expectations Msg H)
    (m : Msg → Bool) (p : H) : Expectations Msg H :=
  { E with
    expectationsWhenever := E.expectationsWhenever ++ [⟨E.nextId, m, p⟩],
    nextId := E.nextId + 1 }

/-- `execOne(msg)`: find the first matching once-entry; if none, return
`false` leaving the state alone; otherwise remove it from the once-list
(`filter((exp) => exp !== expectation)`, identity modelled by `eid`) and
report the expectation whose handler the caller must now run
(`expectation.process(msg)` happens after the removal), returning `true`.
The second component is the fired expectation, the third the registry
state at the moment the handler runs. -/
def Expectations.execOne {Msg H : Type} (E : Expectations Msg H) (msg : Msg) :
    Bool × Option (Expectation Msg H) × Expectations Msg H :=
  match E.expectationsOnce.find? (fun exp => exp.matchFn msg) with
  | none => (false, none, E)
  | some expectation =>
      (true, some expectation,
        { E with
          expectationsOnce :=
            E.expectationsOnce.filter (fun exp => exp.eid != expectation.eid) })

/-- `execWhenever(msg)`: find the first matching whenever-entry
(`findIndex`); if none, return `false`; otherwise report it (the entry
stays in the list) and return `true`. -/
def Expectations.execWhenever {Msg H : Type} (E : Expectations Msg H) (msg : Msg) :
    Bool × Option (Expectation Msg H) × Expectations Msg H :=
  match E.expectationsWhenever.find? (fun exp => exp.matchFn msg) with
  | none => (false, none, E)
  | some expectation => (true, some expectation, E)

/-- `exec(msg) = execOne(msg) || execWhenever(msg)` with JavaScript
short-circuiting: `execWhenever` runs only when `execOne` returned
`false`, in which case `execOne` left the registry untouched. -/
def Expectations.exec {Msg H : Type} (E : Expectations Msg H) (msg : Msg) :
    Bool × Option (Expectation Msg H) × Expectations Msg H :=
  let r := E.execOne msg
  if r.1 then r else E.execWhenever msg

/-- Identity discipline of the registry: all expectation ids (across both
lists) are pairwise distinct and below `nextId`.  This is the pure-model
counterpart of the fact that every `new Expectation(...)` is a fresh heap
object. -/
def Expectations.WF {Msg H : Type} (E : Expectations Msg H) : Prop :=
  ((E.expectationsOnce ++ E.expectationsWhenever).map Expectation.eid).Nodup ∧
    ∀ e ∈ E.expectationsOnce ++ E.expectationsWhenever, e.eid < E.nextId

theorem Expectations.WF_empty {Msg H : Type} : (Expectations.empty : Expectations Msg H).WF := by
  constructor
  · simp [Expectations.empty]
  · intro e he
    simp [Expectations.empty] at he

/-- Inserting a strictly larger value anywhere in a duplicate-free list
keeps it duplicate-free. -/
theorem nodup_insert_mid (A B : List Nat) (n : Nat) (h : (A ++ B).Nodup)
    (hlt : ∀ x ∈ A ++ B, x < n) : (A ++ n :: B).Nodup := by
  have hperm : (n :: (A ++ B)).Perm (A ++ n :: B) := List.perm_middle.symm
  refine hperm.nodup (List.nodup_cons.mpr ⟨?_, h⟩)
  intro hmem
  exact Nat.lt_irrefl n (hlt n hmem)

theorem Expectations.WF_once {Msg H : Type} {E : Expectations Msg H}
    (h : E.WF) (m : Msg → Bool) (p : H) : (E.once m p).WF := by
  obtain ⟨h1, h2⟩ := h
  constructor
  · have := nodup_insert_mid (E.expectationsOnce.map Expectation.eid)
      (E.expectationsWhenever.map Expectation.eid) E.nextId
      (by simpa using h1)
      (by
        intro x hx
        simp only [List.mem_append, List.mem_map] at hx
        rcases hx with ⟨e, he, rfl⟩ | ⟨e, he, rfl⟩
        · exact h2 e (by simp [he])
        · exact h2 e (by simp [he]))
    simpa [Expectations.once] using this
  · intro e he
    simp only [Expectations.once, List.mem_append, List.mem_singleton] at he
    rcases he with (he | he) | he
    · exact Nat.lt_succ_of_lt (h2 e (by simp [he]))
    · subst he; exact Nat.lt_succ_self _
    · exact Nat.lt_succ_of_lt (h2 e (by simp [he]))

theorem Expectations.WF_whenever {Msg H : Type} {E : Expectations Msg H}
    (h : E.WF) (m : Msg → Bool) (p : H) : (E.whenever m p).WF := by
  obtain ⟨h1, h2⟩ := h
  constructor
  · have := nodup_insert_mid
      (E.expectationsOnce.map Expectation.eid ++ E.expectationsWhenever.map Expectation.eid)
      [] E.nextId
      (by simpa using h1)
      (by
        intro x hx
        simp only [List.append_nil, List.mem_append, List.mem_map] at hx
        rcases hx with ⟨e, he, rfl⟩ | ⟨e, he, rfl⟩
        · exact h2 e (by simp [he])
        · exact h2 e (by simp [he]))
    simpa [Expectations.whenever] using this
  · intro e he
    simp only [Expectations.whenever, List.mem_append, List.mem_singleton] at he
    rcases he with he | (he | he)
    · exact Nat.lt_succ_of_lt (h2 e (by simp [he]))
    · exact Nat.lt_succ_of_lt (h2 e (by simp [he]))
    · subst he; exact Nat.lt_succ_self _

/-!
## ActionsStack (`dist/ActionsStack.js`)

The queue lives inside a larger state `σ` (for `BfxApi`, the controller
record); access to the `stack` array is abstracted by a getter/setter
pair.  `fire` is
`this.stack.forEach(function (action) { return action(); }); this.reject();`:
`Array.prototype.forEach` captures `len = stack.length` when iteration
starts and then visits the live array at indices `0 .. len-1`, so actions
pushed by `add` while firing are never visited; `reject` then replaces the
array by `[]`, discarding them.
-/

/-- The `forEach` loop of `ActionsStack.fire`: `k` visits remain, the next
visit reads index `i` of the **live** stack (which running an action may
have extended via `add`). -/
def forEachFire {σ α : Type} (stackOf : σ → List α) (run : σ → α → σ) :
    Nat → Nat → σ → σ
  | 0, _, s => s
  | Nat.succ k, i, s =>
      forEachFire stackOf run k (i + 1)
        (match (stackOf s).get? i with
         | some a => run s a
         | none => s)

/-- `ActionsStack.fire`: run the `forEach` loop over the length captured
at entry, then `reject()` (clear the stack). -/
def fireAll {σ α : Type} (stackOf : σ → List α) (setStack : σ → List α → σ)
    (run : σ → α → σ) (s : σ) : σ :=
  setStack (forEachFire stackOf run (stackOf s).length 0 s) []

/-- A runner is append-only when executing an action can only `add`
(push) to the stack, never remove or reorder — true of every action this
program enqueues (they are `send` closures). -/
def AppendOnly {σ α : Type} (stackOf : σ → List α) (run : σ → α → σ) : Prop :=
  ∀ (s : σ) (a : α), ∃ t, stackOf (run s a) = stackOf s ++ t

/-- While the original queue stays a prefix of the live stack, the
`forEach` loop visits exactly the original elements, i.e. equals a fold
over the snapshot. -/
theorem forEachFire_eq_foldl {σ α : Type} (stackOf : σ → List α)
    (run : σ → α → σ) (hrun : AppendOnly stackOf run) :
    ∀ (k i : Nat) (q : List α) (s : σ),
      (∃ t, stackOf s = q ++ t) → i + k = q.length →
      forEachFire stackOf run k i s = (q.drop i).foldl run s := by
  intro k
  induction k with
  | zero =>
      intro i q s _ hlen
      have : i = q.length := by omega
      subst this
      simp [forEachFire]
  | succ k ih =>
      intro i q s hpre hlen
      obtain ⟨t, ht⟩ := hpre
      have hi : i < q.length := by omega
      have hget : (stackOf s).get? i = some (q.get ⟨i, hi⟩) := by
        rw [ht, List.get?_append hi, List.get?_eq_get hi]
      have hdrop : q.drop i = q.get ⟨i, hi⟩ :: q.drop (i + 1) :=
        List.drop_eq_get_cons hi
      rw [forEachFire, hget]
      obtain ⟨t', ht'⟩ := hrun s (q.get ⟨i, hi⟩)
      rw [ih (i + 1) q (run s (q.get ⟨i, hi⟩)) ⟨t ++ t', by rw [ht', ht, List.append_assoc]⟩
        (by omega)]
      rw [hdrop]
      rfl

/-- `fire` executes exactly the actions present when it was called, in
enqueue order (a fold over the snapshot), and leaves the stack empty:
anything pushed during the firing is wiped by the final `reject()`
without being executed. -/
theorem fireAll_eq_foldl {σ α : Type} (stackOf : σ → List α)
    (setStack : σ → List α → σ) (run : σ → α → σ)
    (hrun : AppendOnly stackOf run) (s : σ) :
    fireAll stackOf setStack run s = setStack ((stackOf s).foldl run s) [] := by
  unfold fireAll
  rw [forEachFire_eq_foldl stackOf run hrun (stackOf s).length 0 (stackOf s) s
    ⟨[], (List.append_nil _).symm⟩ (by omega)]
  rfl

/-!
## JavaScript values and the wire format

Inbound messages (`msg: any`) and outbound payloads
(`data: object | string`) are JavaScript values.  Only the features the
predicates use are modelled: property access, numeric indexing, strict
equality `===` against primitives, and truthiness.
-/

/-- A JavaScript value as the dispatch predicates see it. -/
inductive JsVal : Type
  | jsUndefined
  | null
  | boolean (b : Bool)
  | num (n : Int)
  | str (s : String)
  | arr (elems : List JsVal)
  | obj (fields : List (String × JsVal))

/-- Strict equality `===`.  Primitives compare by value; `arr`/`obj`
compare by reference, and since every predicate of this program compares
a message component against a fresh primitive or a component of a
*different* message, the two sides are never the same heap object — so
any comparison involving an `arr` or `obj` is `false`. -/
def jsEq : JsVal → JsVal → Bool
  | .jsUndefined, .jsUndefined => true
  | .null, .null => true
  | .boolean a, .boolean b => a == b
  | .num a, .num b => a == b
  | .str a, .str b => a == b
  | _, _ => false

/-- JavaScript truthiness (`if (msg.version)` etc.). -/
def truthy : JsVal → Bool
  | .jsUndefined => false
  | .null => false
  | .boolean b => b
  | .num n => n != 0
  | .str s => s != ""
  | .arr _ => true
  | .obj _ => true

/-- Property access `v.key`: defined on objects, `undefined` elsewhere
(prototype properties are not modelled — no predicate relies on them). -/
def jsGet : JsVal → String → JsVal
  | .obj fields, k =>
      match fields.find? (fun f => f.1 == k) with
      | some f => f.2
      | none => .jsUndefined
  | _, _ => .jsUndefined

/-- Index access `v[i]`: array element, or object property named by the
decimal index, `undefined` elsewhere. -/
def jsIdx : JsVal → Nat → JsVal
  | .arr elems, i => elems.getD i .jsUndefined
  | .obj fields, i => jsGet (.obj fields) (toString i)
  | _, _ => .jsUndefined

mutual

/-- `JSON.stringify`, for the payload shapes this program sends
(no cycles, no escaping inside the short protocol strings). -/
def stringify : JsVal → String
  | .jsUndefined => "undefined"
  | .null => "null"
  | .boolean b => if b then "true" else "false"
  | .num n => toString n
  | .str s => "\"" ++ s ++ "\""
  | .arr elems => "[" ++ stringifyArr elems ++ "]"
  | .obj fields => "\x7b" ++ stringifyObj fields ++ "\x7d"

def stringifyArr : List JsVal → String
  | [] => ""
  | [x] => stringify x
  | x :: y :: xs => stringify x ++ "," ++ stringifyArr (y :: xs)

def stringifyObj : List (String × JsVal) → String
  | [] => ""
  | [(k, v)] => "\"" ++ k ++ "\":" ++ stringify v
  | (k, v) :: f :: fs => "\"" ++ k ++ "\":" ++ stringify v ++ "," ++ stringifyObj (f :: fs)

end

/-- The serialization step of `send`:
`if (typeof data !== 'string') { data = JSON.stringify(data); }`
— a string passes through unchanged, anything else is stringified. -/
def serializeData : JsVal → String
  | .str s => s
  | d => stringify d

/-!
## BfxApi (`src/BfxApi.ts`)

The controller record carries the fields of the class plus observable
transcripts: `sentLog` records every string handed to `this.ws.send` (in
order, across transports), `resolutions`/`rejections` record promise
settlements by promise id, `callbackCalls` the invocations of
caller-supplied snapshot callbacks (by callback id), and `heartbeats` the
`Heartbeating` debug logs.  Handlers close over the controller, so they
are defunctionalised into `Handler` and interpreted by `runHandler`.
-/

/-- The handlers this program ever registers, defunctionalised. -/
inductive Handler : Type
  | versionCheck
  | pongLog (cid : Nat)
  | unsubResolve (chanId : Int) (pid : Nat)
  | subscribeAck (pair : String) (pid : Nat) (cb : Nat)
  | snapshotCb (cb : Nat)
  | heartbeating
deriving DecidableEq

/-- `WebSocket.OPEN` (readyState 1; 0 CONNECTING, 2 CLOSING, 3 CLOSED). -/
def wsOPEN : Nat := 1

/-- `WebSocket.CONNECTING`. -/
def wsCONNECTING : Nat := 0

/-- `WebSocket.CLOSING`. -/
def wsCLOSING : Nat := 2

/-- The transport collaborator: its readiness state and the transcript of
payloads it was asked to transmit. -/
structure WS where
  readyState : Nat
  sent : List String

/-- The caller-supplied `callback` argument of `subscribe`: either an
invocable function (identified by an id) or any non-function value
(`typeof callback !== 'function'`). -/
inductive CallbackArg : Type
  | fn (cb : Nat)
  | notFn
deriving DecidableEq

/-- The `BfxApi` instance state. -/
structure BfxApi where
  paused : Bool
  resumeStack : List JsVal
  pingCounter : Nat
  expectations : Expectations JsVal Handler
  ws : Option WS
  nextPromiseId : Nat
  resolutions : List (Nat × JsVal)
  rejections : List (Nat × String)
  callbackCalls : List (Nat × JsVal)
  heartbeats : List JsVal
  sentLog : List String

/-- Modelled from the spec: the allow-list of acceptable protocol
versions (`config.BitfinexAPIVersions`) comes from an external
`config.json` that is not part of the repository's sources; the spec
says only that it is "an allow-list of acceptable protocol versions ...
externally supplied".  The Bitfinex v2 wire protocol is version 2. -/
def allowedVersions : List JsVal := [JsVal.num 2]

/-- The version-check predicate registered by `connect`:
`(msg) => msg.event === 'info' && msg.version`. -/
def versionMatch : JsVal → Bool := fun msg =>
  jsEq (jsGet msg "event") (.str "info") && truthy (jsGet msg "version")

/-- The pong predicate registered by `ping`:
`(msg) => msg.event === 'pong' && msg.cid === cid`. -/
def pongMatch (cid : Nat) : JsVal → Bool := fun msg =>
  jsEq (jsGet msg "event") (.str "pong") && jsEq (jsGet msg "cid") (.num (Int.ofNat cid))

/-- The unsubscribe-ack predicate registered by `unsubscribe`:
`(msg) => msg.event === 'unsubscribed' && msg.chanId === chanId`. -/
def unsubscribedMatch (chanId : Int) : JsVal → Bool := fun msg =>
  jsEq (jsGet msg "event") (.str "unsubscribed") && jsEq (jsGet msg "chanId") (.num chanId)

/-- The subscribe-ack predicate registered by `subscribe`:
`(msg) => msg.event === 'subscribed' && msg.pair && msg.pair === pair`. -/
def subscribedMatch (pair : String) : JsVal → Bool := fun msg =>
  jsEq (jsGet msg "event") (.str "subscribed") && truthy (jsGet msg "pair") &&
    jsEq (jsGet msg "pair") (.str pair)

/-- `MatchHeartbeat(chanId)`: `(msg) => msg[0] === chanId && msg[1] === 'hb'`.
The argument is the `chanId` value read off the acknowledgment message. -/
def MatchHeartbeat (chanId : JsVal) : JsVal → Bool := fun msg =>
  jsEq (jsIdx msg 0) chanId && jsEq (jsIdx msg 1) (.str "hb")

/-- `MatchSnapshot(chanId)`: `(msg) => msg[0] === chanId && msg[1] !== 'hb'`. -/
def MatchSnapshot (chanId : JsVal) : JsVal → Bool := fun msg =>
  jsEq (jsIdx msg 0) chanId && !(jsEq (jsIdx msg 1) (.str "hb"))

/-- The constructor: `paused = true`, a fresh (rejected-empty)
`ActionsStack`, `pingCounter = 0`, a fresh `Expectations`;
`this.ws` is not assigned until `connect`. -/
def BfxApi.init : BfxApi :=
  { paused := true, resumeStack := [], pingCounter := 0,
    expectations := Expectations.empty, ws := none,
    nextPromiseId := 0, resolutions := [], rejections := [],
    callbackCalls := [], heartbeats := [], sentLog := [] }

/-- `this.ws.send(text)`: append to the transport transcript (and to the
cumulative `sentLog`). -/
def BfxApi.wsSendData (s : BfxApi) (text : String) : BfxApi :=
  { s with
    ws := s.ws.map (fun w => { w with sent := w.sent ++ [text] }),
    sentLog := s.sentLog ++ [text] }

/-- `close()`: `this.ws.close()` — ask the transport to shut down. -/
def BfxApi.close (s : BfxApi) : BfxApi :=
  { s with ws := s.ws.map (fun w => { w with readyState := wsCLOSING }) }

/-- The gate of `send`:
`this.paused || !this.ws || this.ws.readyState !== WebSocket.OPEN`. -/
def BfxApi.sendDefers (s : BfxApi) : Bool :=
  s.paused || s.ws.isNone ||
    (match s.ws with
     | none => true
     | some w => w.readyState != wsOPEN)

/-- `send(data)`: when the gate holds, capture the call as a deferred
action (`this.resumeStack.add(this.send.bind(this, data))` — the action
is the closure `send(data)`, so the queue stores the payload); otherwise
serialize and transmit. -/
def BfxApi.send (s : BfxApi) (data : JsVal) : BfxApi :=
  if s.sendDefers then { s with resumeStack := s.resumeStack ++ [data] }
  else s.wsSendData (serializeData data)

/-- `pause()`: `this.paused = true`. -/
def BfxApi.pause (s : BfxApi) : BfxApi :=
  { s with paused := true }

/-- `resume()`: `this.paused = false; this.resumeStack.fire();` — each
queued action is a `send` closure, so firing runs `send` on each queued
payload (with `forEach`-captured length), then clears the queue. -/
def BfxApi.resume (s : BfxApi) : BfxApi :=
  fireAll (fun st => st.resumeStack) (fun st l => { st with resumeStack := l })
    BfxApi.send { s with paused := false }

/-- `connect()`: register the version-check once-expectation, then create
a fresh transport (`this.ws = new WebSocket(this.url)`, readyState
CONNECTING, nothing sent yet) and wire its callbacks. -/
def BfxApi.connect (s : BfxApi) : BfxApi :=
  let s1 := { s with expectations := s.expectations.once versionMatch .versionCheck }
  { s1 with ws := some { readyState := wsCONNECTING, sent := [] } }

/-- `restart()`: `this.close(); this.connect();`. -/
def BfxApi.restart (s : BfxApi) : BfxApi :=
  (s.close).connect

/-- The transport's open event: the socket becomes OPEN and then
`this.ws.onopen = this.resume.bind(this)` runs. -/
def BfxApi.onOpen (s : BfxApi) : BfxApi :=
  let opened : BfxApi := { s with ws := s.ws.map (fun w => { w with readyState := wsOPEN }) }
  opened.resume

/-- Interpretation of the defunctionalised handlers.

* `versionCheck` (`connect`): close the socket when `msg.version` is not
  in the allow-list (`allowedVersions.indexOf(msg.version) === -1`),
  otherwise only log.
* `pongLog` (`ping`): log only.
* `unsubResolve` (`unsubscribe`): resolve that promise with the message.
* `subscribeAck` (`subscribe`): register the two whenever-expectations
  for `e.chanId` — snapshot first, then heartbeat — and resolve the
  promise with the acknowledgment.
* `snapshotCb`: `(msg) => callback(msg)`.
* `heartbeating`: `([chanId]) => this.debug('Heartbeating', {chanId})`. -/
def BfxApi.runHandler (s : BfxApi) (h : Handler) (msg : JsVal) : BfxApi :=
  match h with
  | .versionCheck =>
      if allowedVersions.any (fun v => jsEq v (jsGet msg "version")) then s else s.close
  | .pongLog _ => s
  | .unsubResolve _ pid =>
      { s with resolutions := s.resolutions ++ [(pid, msg)] }
  | .subscribeAck _ pid cb =>
      let chanId := jsGet msg "chanId"
      let s1 := { s with expectations :=
        s.expectations.whenever (MatchSnapshot chanId) (.snapshotCb cb) }
      let s2 := { s1 with expectations :=
        s1.expectations.whenever (MatchHeartbeat chanId) .heartbeating }
      { s2 with resolutions := s2.resolutions ++ [(pid, msg)] }
  | .snapshotCb cb =>
      { s with callbackCalls := s.callbackCalls ++ [(cb, msg)] }
  | .heartbeating =>
      { s with heartbeats := s.heartbeats ++ [jsIdx msg 0] }

/-- `ping()`: `const cid = ++this.pingCounter;` then register the pong
once-expectation and send `{ cid, event: 'ping' }`. -/
def BfxApi.ping (s : BfxApi) : BfxApi :=
  let cid := s.pingCounter + 1
  let s1 := { s with
    pingCounter := cid,
    expectations := s.expectations.once (pongMatch cid) (.pongLog cid) }
  s1.send (.obj [("cid", .num (Int.ofNat cid)), ("event", .str "ping")])

/-- `unsubscribe(chanId)`: send `{ event, chanId }` first, then create the
promise whose executor registers the acknowledgment once-expectation.
Returns the promise id with the new state. -/
def BfxApi.unsubscribe (s : BfxApi) (chanId : Int) : BfxApi × Nat :=
  let s1 := s.send (.obj [("event", .str "unsubscribe"), ("chanId", .num chanId)])
  let pid := s1.nextPromiseId
  ({ s1 with
      nextPromiseId := pid + 1,
      expectations := s1.expectations.once (unsubscribedMatch chanId)
        (.unsubResolve chanId pid) }, pid)

/-- The rejection message of `subscribe`. -/
def subscribeTypeError : String := "BfxApi.subscribe error: callback must be a function"

/-- `subscribe(channel, pair, params, callback)`: the promise executor
runs synchronously — reject with a `TypeError` when
`typeof callback !== 'function'` (and do nothing else); otherwise
register the acknowledgment once-expectation and send
`{ event: 'subscribe', channel, ...params }`.  Returns the promise id
with the new state. -/
def BfxApi.subscribe (s : BfxApi) (channel pair : String)
    (params : List (String × JsVal)) (callback : CallbackArg) : BfxApi × Nat :=
  let pid := s.nextPromiseId
  let s0 := { s with nextPromiseId := pid + 1 }
  match callback with
  | .notFn =>
      ({ s0 with rejections := s0.rejections ++ [(pid, subscribeTypeError)] }, pid)
  | .fn cb =>
      let s1 := { s0 with expectations :=
        s0.expectations.once (subscribedMatch pair) (.subscribeAck pair pid cb) }
      (s1.send (.obj ([("event", .str "subscribe"), ("channel", .str channel)] ++ params)), pid)

/-- `processMsgInfo(msg)`: `switch (msg.code)` — 20051 restart,
20060 pause, 20061 resume, anything else only logged. -/
def BfxApi.processMsgInfo (s : BfxApi) (msg : JsVal) : BfxApi :=
  if jsEq (jsGet msg "code") (.num 20051) then s.restart
  else if jsEq (jsGet msg "code") (.num 20060) then s.pause
  else if jsEq (jsGet msg "code") (.num 20061) then s.resume
  else s

/-- The body of `handleMessage` after the `JSON.parse`: first
`this.expectations.exec(msg)` (running the fired handler, if any, on the
registry state it left behind); if unconsumed and `msg.event === 'info'`,
`processMsgInfo`; otherwise only a debug log. -/
def BfxApi.dispatchMsg (s : BfxApi) (msg : JsVal) : BfxApi :=
  let r := s.expectations.exec msg
  let s1 := { s with expectations := r.2.2 }
  if r.1 then
    match r.2.1 with
    | some e => s1.runHandler e.process msg
    | none => s1
  else if jsEq (jsGet msg "event") (.str "info") then s1.processMsgInfo msg
  else s1

/-- `handleMessage(rawMsg)`: `const msg = JSON.parse(rawMsg.data);` comes
first — `JSON.parse` is a host builtin (the spec places JSON wire
encoding outside the core), so the decoder is a parameter; a decode
failure aborts the method before dispatch or control handling. -/
def BfxApi.handleMessage (parse : String → Except String JsVal)
    (s : BfxApi) (raw : String) : Except String BfxApi :=
  match parse raw with
  | .error e => .error e
  | .ok msg => .ok (s.dispatchMsg msg)

/-- The transport's message event around `handleMessage`: an exception
thrown out of the listener propagates to the event loop and the instance
is left exactly as it was. -/
def BfxApi.onMessageEvent (parse : String → Except String JsVal)
    (s : BfxApi) (raw : String) : BfxApi :=
  match BfxApi.handleMessage parse s raw with
  | .ok s1 => s1
  | .error _ => s

/-!
## Event steps (for the temporal claims)

One event = one synchronously-executed entry into the controller: an
inbound decoded message, the transport open event, or one caller-facing
operation.
-/

/-- The externally triggered entries into the controller. -/
inductive Ev : Type
  | inbound (m : JsVal)
  | wsOpen
  | sendReq (d : JsVal)
  | pingReq
  | subscribeReq (channel pair : String) (params : List (String × JsVal)) (cb : CallbackArg)
  | unsubscribeReq (chanId : Int)
  | closeReq
  | connectReq
  | restartReq

/-- One synchronous step of the controller. -/
def BfxApi.step (s : BfxApi) : Ev → BfxApi
  | .inbound m => s.dispatchMsg m
  | .wsOpen => s.onOpen
  | .sendReq d => s.send d
  | .pingReq => s.ping
  | .subscribeReq channel pair params cb => (s.subscribe channel pair params cb).1
  | .unsubscribeReq chanId => (s.unsubscribe chanId).1
  | .closeReq => s.close
  | .connectReq => s.connect
  | .restartReq => s.restart

/-- Run a sequence of events. -/
def BfxApi.run (s : BfxApi) (evs : List Ev) : BfxApi :=
  evs.foldl BfxApi.step s

/-- Whether this step reaches a `resume()` call: the transport open
event, or an inbound message that is not consumed by the registry, is an
`info` event, and carries code 20061. -/
def BfxApi.resumesInStep (s : BfxApi) : Ev → Bool
  | .wsOpen => true
  | .inbound m =>
      !(s.expectations.exec m).1 && jsEq (jsGet m "event") (.str "info") &&
        jsEq (jsGet m "code") (.num 20061)
  | _ => false

/-- No step along the trace reaches a `resume()` call. -/
def BfxApi.noResumeAlong : BfxApi → List Ev → Bool
  | _, [] => true
  | s, e :: r => !(s.resumesInStep e) && (s.step e).noResumeAlong r

/-!
## Dispatch-order theorems (claims C1 and C8)
-/

/-- `find?` returns the first element of a split list whose prefix has no
match and whose head after the prefix matches. -/
theorem find_first_of_split {α : Type} (p : α → Bool) :
    ∀ (pre : List α) (e : α) (post : List α),
      (∀ x ∈ pre, p x = false) → p e = true →
      (pre ++ e :: post).find? p = some e := by
  intro pre
  induction pre with
  | nil =>
      intro e post _ he
      simp [List.find?, he]
  | cons a l ih =>
      intro e post hpre he
      have ha : p a = false := hpre a (by simp)
      simp only [List.cons_append, List.find?, ha]
      exact ih e post (fun x hx => hpre x (by simp [hx])) he

/-- With pairwise-distinct ids, the removal filter of `execOne` deletes
exactly the found entry. -/
theorem filter_ne_eid_of_nodup {Msg H : Type} (pre post : List (Expectation Msg H))
    (e : Expectation Msg H)
    (h : ((pre ++ e :: post).map Expectation.eid).Nodup) :
    (pre ++ e :: post).filter (fun x => x.eid != e.eid) = pre ++ post := by
  have hperm : ((pre ++ e :: post).map Expectation.eid).Perm
      (e.eid :: (pre.map Expectation.eid ++ post.map Expectation.eid)) := by
    have hmid := (@List.perm_middle _ e.eid
      (pre.map Expectation.eid) (post.map Expectation.eid)).symm
    simpa using hmid
  have hnodup : (e.eid :: (pre.map Expectation.eid ++ post.map Expectation.eid)).Nodup :=
    hperm.nodup h
  have hnotmem : e.eid ∉ pre.map Expectation.eid ++ post.map Expectation.eid :=
    (List.nodup_cons.mp hnodup).1
  rw [List.filter_append, List.filter_cons]
  have hself : (e.eid != e.eid) = false := by simp
  rw [hself]
  have hpre : pre.filter (fun x => x.eid != e.eid) = pre := by
    refine List.filter_eq_self.mpr ?_
    intro x hx
    have hne : x.eid ≠ e.eid := by
      intro hx2
      exact hnotmem (by
        simp only [List.mem_append]
        left
        exact List.mem_map.mpr ⟨x, hx, hx2⟩)
    simpa [bne_iff_ne] using hne
  have hpost : post.filter (fun x => x.eid != e.eid) = post := by
    refine List.filter_eq_self.mpr ?_
    intro x hx
    have hne : x.eid ≠ e.eid := by
      intro hx2
      exact hnotmem (by
        simp only [List.mem_append]
        right
        exact List.mem_map.mpr ⟨x, hx, hx2⟩)
    simpa [bne_iff_ne] using hne
  simp [hpre, hpost]

/-- C1.  Dispatch order of `Expectations.exec`: the once-list is scanned
in registration order and the first entry whose predicate accepts the
message is removed from the list before its handler is invoked with the
message (the returned registry is the state at handler-invocation time),
returning consumed; only when no once-entry matches is the whenever-list
scanned in registration order, the first matching entry firing while
staying in the list; when neither list has a match, the dispatch returns
unconsumed.  At most one handler fires per call: the fired-handler slot
holds at most one expectation.  The id-distinctness hypothesis is the
object-identity discipline every reachable registry satisfies
(`Expectations.WF_empty`, `Expectations.WF_once`,
`Expectations.WF_whenever`). -/
theorem claim_C1_exec_dispatch_order {Msg H : Type} (E : Expectations Msg H) (msg : Msg)
    (hids : (E.expectationsOnce.map Expectation.eid).Nodup) :
    (∀ (pre post : List (Expectation Msg H)) (e : Expectation Msg H),
        E.expectationsOnce = pre ++ e :: post →
        (∀ x ∈ pre, x.matchFn msg = false) → e.matchFn msg = true →
        E.exec msg = (true, some e, { E with expectationsOnce := pre ++ post })) ∧
    ((∀ x ∈ E.expectationsOnce, x.matchFn msg = false) →
      ∀ (pre post : List (Expectation Msg H)) (e : Expectation Msg H),
        E.expectationsWhenever = pre ++ e :: post →
        (∀ x ∈ pre, x.matchFn msg = false) → e.matchFn msg = true →
        E.exec msg = (true, some e, E)) ∧
    ((∀ x ∈ E.expectationsOnce, x.matchFn msg = false) →
     (∀ x ∈ E.expectationsWhenever, x.matchFn msg = false) →
      E.exec msg = (false, none, E)) := by
  refine ⟨?_, ?_, ?_⟩
  · intro pre post e hsplit hpre he
    have hfind : E.expectationsOnce.find? (fun x => x.matchFn msg) = some e := by
      rw [hsplit]; exact find_first_of_split _ pre e post hpre he
    have hfilter : E.expectationsOnce.filter (fun x => x.eid != e.eid) = pre ++ post := by
      rw [hsplit]
      exact filter_ne_eid_of_nodup pre post e (hsplit ▸ hids)
    simp [Expectations.exec, Expectations.execOne, hfind, hfilter]
  · intro hnone pre post e hsplit hpre he
    have hfind1 : E.expectationsOnce.find? (fun x => x.matchFn msg) = none :=
      List.find?_eq_none.mpr (fun x hx => by simp [hnone x hx])
    have hfind2 : E.expectationsWhenever.find? (fun x => x.matchFn msg) = some e := by
      rw [hsplit]; exact find_first_of_split _ pre e post hpre he
    simp [Expectations.exec, Expectations.execOne, Expectations.execWhenever, hfind1, hfind2]
  · intro hnone1 hnone2
    have hfind1 : E.expectationsOnce.find? (fun x => x.matchFn msg) = none :=
      List.find?_eq_none.mpr (fun x hx => by simp [hnone1 x hx])
    have hfind2 : E.expectationsWhenever.find? (fun x => x.matchFn msg) = none :=
      List.find?_eq_none.mpr (fun x hx => by simp [hnone2 x hx])
    simp [Expectations.exec, Expectations.execOne, Expectations.execWhenever, hfind1, hfind2]

/-- A concrete registry over `Msg := Nat`, `H := Nat` for the C1 witness:
three once-entries (ids 0,1,2), one whenever-entry (id 3). -/
def witnessRegistryC1 : Expectations Nat Nat :=
  { expectationsOnce :=
      [⟨0, fun n => n == 9, 100⟩, ⟨1, fun n => Nat.ble 3 n, 200⟩, ⟨2, fun n => n == 3, 300⟩],
    expectationsWhenever := [⟨3, fun _ => true, 400⟩],
    nextId := 4 }

/-- Witness for C1: on message `3`, entry id 1 is the first once-match;
it is removed and reported, the whenever-list untouched. -/
theorem claim_C1_witness :
    (witnessRegistryC1.expectationsOnce.map Expectation.eid).Nodup ∧
    witnessRegistryC1.exec 3 =
      (true, some ⟨1, fun n => Nat.ble 3 n, 200⟩,
        { witnessRegistryC1 with expectationsOnce :=
            [⟨0, fun n => n == 9, 100⟩, ⟨2, fun n => n == 3, 300⟩] }) := by
  constructor
  · decide
  · exact (claim_C1_exec_dispatch_order witnessRegistryC1 3 (by decide)).1
      [⟨0, fun n => n == 9, 100⟩] [⟨2, fun n => n == 3, 300⟩]
      ⟨1, fun n => Nat.ble 3 n, 200⟩ rfl
      (by intro x hx; simp only [List.mem_singleton] at hx; subst hx; rfl) rfl

/-- C8.  A message matching no predicate in either list is dispatched as
unconsumed (`false`), no handler fires, and both lists — entries and
order — are left exactly as they were. -/
theorem claim_C8_unmatched_frame {Msg H : Type} (E : Expectations Msg H) (msg : Msg)
    (h1 : ∀ x ∈ E.expectationsOnce, x.matchFn msg = false)
    (h2 : ∀ x ∈ E.expectationsWhenever, x.matchFn msg = false) :
    E.exec msg = (false, none, E) := by
  have hfind1 : E.expectationsOnce.find? (fun x => x.matchFn msg) = none :=
    List.find?_eq_none.mpr (fun x hx => by simp [h1 x hx])
  have hfind2 : E.expectationsWhenever.find? (fun x => x.matchFn msg) = none :=
    List.find?_eq_none.mpr (fun x hx => by simp [h2 x hx])
  simp [Expectations.exec, Expectations.execOne, Expectations.execWhenever, hfind1, hfind2]

/-- A concrete registry for the C8 witness. -/
def witnessRegistryC8 : Expectations Nat Nat :=
  { expectationsOnce := [⟨0, fun n => n == 1, 100⟩, ⟨1, fun n => n == 2, 200⟩],
    expectationsWhenever := [⟨2, fun n => n == 4, 300⟩],
    nextId := 3 }

/-- Witness for C8: message `7` matches nothing; dispatch returns
unconsumed with the registry unchanged. -/
theorem claim_C8_witness : witnessRegistryC8.exec 7 = (false, none, witnessRegistryC8) :=
  claim_C8_unmatched_frame witnessRegistryC8 7
    (by intro x hx; fin_cases hx <;> rfl)
    (by intro x hx; fin_cases hx <;> rfl)

/-!
## ActionsStack firing (claim C9) and the send gate (claims C4, C2)
-/

/-- C9.  `ActionsStack.fire()` executes exactly the actions that were in
the queue when it was called — a left fold over that snapshot, in enqueue
order — and then leaves the queue empty; an action pushed via `add()`
during the firing sits past the `forEach`-captured length, is never
visited, and is wiped by the final `reject()` without being executed. -/
theorem claim_C9_fire_snapshot {σ α : Type} (stackOf : σ → List α)
    (setStack : σ → List α → σ) (run : σ → α → σ)
    (hrun : AppendOnly stackOf run) (s : σ) :
    fireAll stackOf setStack run s = setStack ((stackOf s).foldl run s) [] :=
  fireAll_eq_foldl stackOf setStack run hrun s

/-- A concrete runner for the C9 witness over worlds
`(executed trace, queue)`: running action `a` records `a` in the trace
and `add`s a new action `a + 10` to the queue. -/
def c9Run : (List Nat × List Nat) → Nat → (List Nat × List Nat) :=
  fun s a => (s.1 ++ [a], s.2 ++ [a + 10])

/-- Witness for C9: firing queue `[1, 2]` executes exactly `1, 2` (the
actions `11, 12` added during the firing are never executed) and clears
the queue. -/
theorem claim_C9_witness :
    AppendOnly Prod.snd c9Run ∧
    fireAll Prod.snd (fun s l => (s.1, l)) c9Run (([], [1, 2]) : List Nat × List Nat)
      = ([1, 2], []) := by
  have hrun : AppendOnly Prod.snd c9Run := fun s a => ⟨[a + 10], rfl⟩
  refine ⟨hrun, ?_⟩
  rw [claim_C9_fire_snapshot Prod.snd (fun s l => (s.1, l)) c9Run hrun]
  rfl

/-- C4.  The gate of `send`: the call is captured as a deferred action
holding exactly the payload (and nothing reaches the transport — the
whole rest of the state is unchanged) precisely when `paused` is true, or
no transport instance exists, or the transport is not in the OPEN ready
state; otherwise the payload is serialized — passed through unchanged
when already a string, `JSON.stringify`-ed otherwise — and transmitted
immediately. -/
theorem claim_C4_send_gate (s : BfxApi) (d : JsVal) :
    (s.sendDefers = true → s.send d = { s with resumeStack := s.resumeStack ++ [d] }) ∧
    (s.sendDefers = false → s.send d = s.wsSendData (serializeData d)) ∧
    (s.sendDefers = true ↔
      s.paused = true ∨ s.ws = none ∨ ∃ w, s.ws = some w ∧ w.readyState ≠ wsOPEN) ∧
    (∀ t, serializeData (.str t) = t) ∧
    (∀ dd : JsVal, (∀ t, dd ≠ .str t) → serializeData dd = stringify dd) := by
  refine ⟨?_, ?_, ?_, ?_, ?_⟩
  · intro h; simp [BfxApi.send, h]
  · intro h; simp [BfxApi.send, h]
  · cases hp : s.paused with
    | true => simp [BfxApi.sendDefers, hp]
    | false =>
        cases hw : s.ws with
        | none => simp [BfxApi.sendDefers, hp, hw]
        | some w =>
            simp only [BfxApi.sendDefers, hp, hw, Bool.false_or, Option.isNone_some]
            constructor
            · intro h
              right; right
              exact ⟨w, rfl, by simpa using h⟩
            · intro h
              rcases h with h | h | ⟨w2, hw2, h⟩
              · exact absurd h (by simp)
              · exact absurd h (by simp)
              · simp only [Option.some.injEq] at hw2
                subst hw2
                simpa using h
  · intro t; rfl
  · intro dd h
    cases dd with
    | str t => exact absurd rfl (h t)
    | jsUndefined => rfl
    | null => rfl
    | boolean b => rfl
    | num n => rfl
    | arr elems => rfl
    | obj fields => rfl

/-- Witness for C4: the fresh controller (paused, no transport) defers a
send of `"x"`, and an active controller with an OPEN transport transmits
a serialized object immediately. -/
theorem claim_C4_witness :
    BfxApi.init.sendDefers = true ∧
    BfxApi.init.send (.str "x") = { BfxApi.init with resumeStack := [JsVal.str "x"] } ∧
    ({ BfxApi.init with paused := false, ws := some ⟨wsOPEN, []⟩ } : BfxApi).send
        (.obj [("cid", .num 1)])
      = { BfxApi.init with
          paused := false,
          ws := some ⟨wsOPEN, ["\x7b\"cid\":1\x7d"]⟩,
          sentLog := ["\x7b\"cid\":1\x7d"] } :=
  ⟨rfl,
   (claim_C4_send_gate BfxApi.init (.str "x")).1 rfl,
   (claim_C4_send_gate { BfxApi.init with paused := false, ws := some ⟨wsOPEN, []⟩ }
      (.obj [("cid", .num 1)])).2.1 rfl⟩

/-- While paused, a `send` only appends the payload to the deferred
queue; nothing else in the state changes. -/
theorem send_paused_eq (s : BfxApi) (d : JsVal) (h : s.paused = true) :
    s.send d = { s with resumeStack := s.resumeStack ++ [d] } := by
  simp [BfxApi.send, BfxApi.sendDefers, h]

/-- While paused, a sequence of `send`s appends exactly the payloads, in
call order, to the deferred queue; nothing else in the state changes. -/
theorem foldl_send_paused (q : List JsVal) :
    ∀ (s : BfxApi), s.paused = true →
      q.foldl BfxApi.send s = { s with resumeStack := s.resumeStack ++ q } := by
  induction q with
  | nil =>
      intro s _
      simp
  | cons d r ih =>
      intro s h
      rw [List.foldl_cons, send_paused_eq s d h]
      rw [ih { s with resumeStack := s.resumeStack ++ [d] } h]
      simp

/-- While active with an OPEN transport, a sequence of `send`s transmits
exactly the serialized payloads, in call order; the deferred queue and
all other fields are unchanged. -/
theorem foldl_send_active (q : List JsVal) :
    ∀ (s : BfxApi) (w : WS), s.paused = false → s.ws = some w → w.readyState = wsOPEN →
      q.foldl BfxApi.send s =
        { s with
          ws := some { w with sent := w.sent ++ q.map serializeData },
          sentLog := s.sentLog ++ q.map serializeData } := by
  induction q with
  | nil =>
      intro s w hp hw _
      simp only [List.foldl_nil, List.map_nil, List.append_nil]
      show s = { s with ws := some w }
      rw [← hw]
  | cons d r ih =>
      intro s w hp hw hr
      have hdef : s.sendDefers = false := by
        simp [BfxApi.sendDefers, hp, hw, hr]
      have hsend : s.send d = { s with
          ws := some { w with sent := w.sent ++ [serializeData d] },
          sentLog := s.sentLog ++ [serializeData d] } := by
        simp [BfxApi.send, hdef, BfxApi.wsSendData, hw]
      rw [List.foldl_cons, hsend]
      rw [ih { s with
                ws := some { w with sent := w.sent ++ [serializeData d] },
                sentLog := s.sentLog ++ [serializeData d] }
            { w with sent := w.sent ++ [serializeData d] } hp rfl hr]
      simp

/-- `send` only ever appends to the deferred queue. -/
theorem send_appendOnly : AppendOnly (fun st => st.resumeStack) BfxApi.send := by
  intro s a
  by_cases h : s.sendDefers
  · exact ⟨[a], by simp [BfxApi.send, h]⟩
  · exact ⟨[], by simp [BfxApi.send, h, BfxApi.wsSendData]⟩

/-- C2.  Sends issued while paused (transport OPEN underneath): none of
the payloads reaches the transport while paused; each is captured as a
deferred action in call order; `resume()` transmits the whole queue — the
earlier deferred actions followed by these payloads — in exactly that
order, and the deferred queue is empty afterwards.  No send issued while
paused is dropped. -/
theorem claim_C2_pause_queue_replay (s : BfxApi) (payloads : List JsVal) (w : WS)
    (hp : s.paused = true) (hw : s.ws = some w) (hr : w.readyState = wsOPEN) :
    ((payloads.foldl BfxApi.send s).sentLog = s.sentLog ∧
     (payloads.foldl BfxApi.send s).resumeStack = s.resumeStack ++ payloads) ∧
    (((payloads.foldl BfxApi.send s).resume).sentLog
        = s.sentLog ++ (s.resumeStack ++ payloads).map serializeData ∧
     ((payloads.foldl BfxApi.send s).resume).resumeStack = []) := by
  have h1 : payloads.foldl BfxApi.send s = { s with resumeStack := s.resumeStack ++ payloads } :=
    foldl_send_paused payloads s hp
  refine ⟨⟨by rw [h1], by rw [h1]⟩, ?_⟩
  rw [h1]
  unfold BfxApi.resume
  rw [fireAll_eq_foldl _ _ _ send_appendOnly]
  rw [foldl_send_active (s.resumeStack ++ payloads)
    { s with resumeStack := s.resumeStack ++ payloads, paused := false } w rfl hw hr]
  exact ⟨rfl, rfl⟩

/-- A paused controller with an OPEN transport underneath, reached
through the public interface: construct, connect, transport opens
(resume), then a server-directed pause. -/
def pausedC2State : BfxApi :=
  ((BfxApi.init.connect).onOpen).pause

/-- Witness for C2: two sends while paused are queued in order and not
transmitted; the resume transmits `"a"` then `"b"` and empties the
queue. -/
theorem claim_C2_witness :
    pausedC2State.paused = true ∧
    ([JsVal.str "a", JsVal.str "b"].foldl BfxApi.send pausedC2State).sentLog = [] ∧
    ([JsVal.str "a", JsVal.str "b"].foldl BfxApi.send pausedC2State).resumeStack
      = [JsVal.str "a", JsVal.str "b"] ∧
    (([JsVal.str "a", JsVal.str "b"].foldl BfxApi.send pausedC2State).resume).sentLog
      = ["a", "b"] ∧
    (([JsVal.str "a", JsVal.str "b"].foldl BfxApi.send pausedC2State).resume).resumeStack
      = [] := by
  have h := claim_C2_pause_queue_replay pausedC2State [JsVal.str "a", JsVal.str "b"]
    ⟨wsOPEN, []⟩ rfl rfl rfl
  exact ⟨rfl, h.1.1, h.1.2, h.2.1, h.2.2⟩

/-!
## Subscribe input validation (claim C7), decode failures (claim C10),
and restart (claim C3)
-/

/-- C7.  `subscribe` with a non-invocable callback rejects synchronously
with the `TypeError` text: the only state changes are the allocation of
the promise and the recorded rejection — in particular the registry, the
deferred queue and the transport transcript are exactly as before, and
nothing was sent. -/
theorem claim_C7_subscribe_invalid_callback (s : BfxApi) (channel pair : String)
    (params : List (String × JsVal)) :
    s.subscribe channel pair params .notFn
      = ({ s with
           nextPromiseId := s.nextPromiseId + 1,
           rejections := s.rejections ++ [(s.nextPromiseId, subscribeTypeError)] },
         s.nextPromiseId) ∧
    (s.subscribe channel pair params .notFn).1.expectations = s.expectations ∧
    (s.subscribe channel pair params .notFn).1.resumeStack = s.resumeStack ∧
    (s.subscribe channel pair params .notFn).1.sentLog = s.sentLog ∧
    (s.subscribe channel pair params .notFn).1.ws = s.ws :=
  ⟨rfl, rfl, rfl, rfl, rfl⟩

/-- C10.  When the raw payload does not decode, `handleMessage` fails
with exactly the decode error before any dispatch or control handling —
the pure embedding returns no successor state — and the instance observed
after the throw is exactly the instance before the call. -/
theorem claim_C10_decode_error (parse : String → Except String JsVal)
    (s : BfxApi) (raw : String) (e : String) (h : parse raw = .error e) :
    BfxApi.handleMessage parse s raw = .error e ∧
    BfxApi.onMessageEvent parse s raw = s := by
  constructor
  · simp [BfxApi.handleMessage, h]
  · simp [BfxApi.onMessageEvent, BfxApi.handleMessage, h]

/-- A decoder that always fails, as `JSON.parse` does on `"nope"`. -/
def failingParse : String → Except String JsVal :=
  fun _ => .error "SyntaxError: Unexpected token"

/-- Witness for C10: the failing decode propagates and the fresh
controller is untouched. -/
theorem claim_C10_witness :
    BfxApi.handleMessage failingParse BfxApi.init "nope"
        = .error "SyntaxError: Unexpected token" ∧
    BfxApi.onMessageEvent failingParse BfxApi.init "nope" = BfxApi.init :=
  claim_C10_decode_error failingParse BfxApi.init "nope" "SyntaxError: Unexpected token" rfl

/-- A controller carrying a pending once-expectation from before a
restart: construct, connect, transport opens, then `ping()` registers a
pong once-expectation (id 1) next to the version-check (id 0). -/
def oldEpochState : BfxApi :=
  ((BfxApi.init.connect).onOpen).ping

/-- The pong acknowledgment for the pre-restart ping. -/
def pongMsgC3 : JsVal :=
  .obj [("event", .str "pong"), ("cid", .num 1), ("ts", .num 100)]

/-- Counterexample to C3: after `restart()` the registry is NOT fresh —
it still holds the pre-restart version-check and pong once-expectations
(three entries, not just the re-armed version check), and dispatching the
old pong acknowledgment still fires the old epoch's handler. -/
theorem claim_C3_counterexample :
    ((oldEpochState.restart).expectations.expectationsOnce.map Expectation.process
      = [.versionCheck, .pongLog 1, .versionCheck]) ∧
    ((oldEpochState.restart).expectations.exec pongMsgC3).1 = true ∧
    (((oldEpochState.restart).expectations.exec pongMsgC3).2.1.map Expectation.process
      = some (.pongLog 1)) :=
  ⟨rfl, rfl, rfl⟩

/-- C3 (amended).  `restart()` is exactly `close()` followed by
`connect()`: the old transport is told to shut down and a fresh transport
is installed, but the same registry object is kept — `connect()` merely
appends one more version-check once-expectation to it, the whenever-list
is untouched, and every expectation registered before the restart remains
registered (and can still fire, as the counterexample shows). -/
theorem claim_C3_restart_keeps_registry (s : BfxApi) :
    s.restart = (s.close).connect ∧
    (s.restart).expectations.expectationsOnce
      = s.expectations.expectationsOnce
          ++ [⟨s.expectations.nextId, versionMatch, .versionCheck⟩] ∧
    (s.restart).expectations.expectationsWhenever = s.expectations.expectationsWhenever ∧
    (s.restart).paused = s.paused :=
  ⟨rfl, rfl, rfl, rfl⟩

/-!
## The subscribe conversation (claim C5)
-/

/-- A freshly connected, active controller: construct, `connect()`,
transport open (resume). -/
def scenarioStartC5 : BfxApi :=
  (BfxApi.init.connect).onOpen

/-- The server's subscription acknowledgment for pair `BTCUSD`. -/
def ackMsgC5 : JsVal :=
  .obj [("event", .str "subscribed"), ("pair", .str "BTCUSD"), ("chanId", .num 5)]

/-- A heartbeat on channel 5. -/
def hbMsgC5 : JsVal :=
  .arr [.num 5, .str "hb"]

/-- A data snapshot on channel 5. -/
def snapMsgC5 : JsVal :=
  .arr [.num 5, .arr [.num 100, .num 1]]

/-- C5.  Subscribing with a valid callback for pair `BTCUSD` and then
dispatching the acknowledgment `{event:'subscribed', pair:'BTCUSD',
chanId:5}` resolves the returned promise with that payload and leaves
exactly two whenever-expectations scoped to channel 5 — the snapshot
matcher driving the caller's callback and the heartbeat matcher driving
the internal logger — while consuming the subscribe once-expectation;
the subsequent `[5,'hb']` fires the internal heartbeat handler and not
the callback, and `[5,[100,1]]` invokes the callback with that payload. -/
theorem claim_C5_subscribe_scenario (cb : Nat) (channel : String)
    (params : List (String × JsVal)) :
    ((scenarioStartC5.subscribe channel "BTCUSD" params (.fn cb)).1.dispatchMsg
        ackMsgC5).resolutions
      = [((scenarioStartC5.subscribe channel "BTCUSD" params (.fn cb)).2, ackMsgC5)] ∧
    ((scenarioStartC5.subscribe channel "BTCUSD" params (.fn cb)).1.dispatchMsg
        ackMsgC5).expectations.expectationsWhenever
      = [⟨2, MatchSnapshot (.num 5), .snapshotCb cb⟩,
         ⟨3, MatchHeartbeat (.num 5), .heartbeating⟩] ∧
    ((scenarioStartC5.subscribe channel "BTCUSD" params (.fn cb)).1.dispatchMsg
        ackMsgC5).expectations.expectationsOnce.map Expectation.process
      = [.versionCheck] ∧
    (((scenarioStartC5.subscribe channel "BTCUSD" params (.fn cb)).1.dispatchMsg
        ackMsgC5).dispatchMsg hbMsgC5).heartbeats = [.num 5] ∧
    (((scenarioStartC5.subscribe channel "BTCUSD" params (.fn cb)).1.dispatchMsg
        ackMsgC5).dispatchMsg hbMsgC5).callbackCalls = [] ∧
    ((((scenarioStartC5.subscribe channel "BTCUSD" params (.fn cb)).1.dispatchMsg
        ackMsgC5).dispatchMsg hbMsgC5).dispatchMsg snapMsgC5).callbackCalls
      = [(cb, snapMsgC5)] :=
  ⟨rfl, rfl, rfl, rfl, rfl, rfl⟩

/-!
## The pause directive and its persistence (claim C6)
-/

/-- A value strictly equal (`===`) to a number literal is that number. -/
theorem jsEq_num_eq (v : JsVal) (a : Int) (h : jsEq v (.num a) = true) : v = .num a := by
  cases v with
  | num n => simp [jsEq] at h; subst h; rfl
  | jsUndefined => simp [jsEq] at h
  | null => simp [jsEq] at h
  | boolean b => simp [jsEq] at h
  | str s => simp [jsEq] at h
  | arr elems => simp [jsEq] at h
  | obj fields => simp [jsEq] at h

/-- No handler this program registers touches the pause flag or the
transmission log. -/
theorem runHandler_frame (s : BfxApi) (h : Handler) (m : JsVal) :
    (s.runHandler h m).paused = s.paused ∧ (s.runHandler h m).sentLog = s.sentLog := by
  cases h with
  | versionCheck =>
      unfold BfxApi.runHandler
      by_cases hv : allowedVersions.any (fun v => jsEq v (jsGet m "version")) = true
      · simp [hv]
      · simp only [Bool.not_eq_true] at hv
        simp [hv, BfxApi.close]
  | pongLog c => exact ⟨rfl, rfl⟩
  | unsubResolve a b => exact ⟨rfl, rfl⟩
  | subscribeAck a b c => exact ⟨rfl, rfl⟩
  | snapshotCb c => exact ⟨rfl, rfl⟩
  | heartbeating => exact ⟨rfl, rfl⟩

/-- One controller step that does not reach a `resume()` call keeps the
controller paused and transmits nothing. -/
theorem step_paused_frame (s : BfxApi) (e : Ev) (hp : s.paused = true)
    (hnr : s.resumesInStep e = false) :
    (s.step e).paused = true ∧ (s.step e).sentLog = s.sentLog := by
  cases e with
  | inbound m =>
      show (s.dispatchMsg m).paused = true ∧ (s.dispatchMsg m).sentLog = s.sentLog
      unfold BfxApi.dispatchMsg
      cases hr : (s.expectations.exec m).1 with
      | true =>
          simp only [hr, if_true]
          cases hfired : (s.expectations.exec m).2.1 with
          | some ex =>
              simp only [hfired]
              have hf := runHandler_frame { s with expectations := (s.expectations.exec m).2.2 }
                ex.process m
              exact ⟨hf.1.trans hp, hf.2⟩
          | none => exact ⟨hp, rfl⟩
      | false =>
          simp only [hr, if_false, Bool.false_eq_true]
          cases hev : jsEq (jsGet m "event") (.str "info") with
          | false =>
              refine ⟨?_, ?_⟩ <;> simp [hev, hp]
          | true =>
              simp only [hev, if_true]
              have hcode : jsEq (jsGet m "code") (.num 20061) = false := by
                simp only [BfxApi.resumesInStep, hr, hev] at hnr
                simpa using hnr
              unfold BfxApi.processMsgInfo
              by_cases h51 : jsEq (jsGet m "code") (.num 20051) = true
              · refine ⟨?_, ?_⟩ <;> simp [h51, hp, BfxApi.restart, BfxApi.close, BfxApi.connect]
              · simp only [Bool.not_eq_true] at h51
                simp only [h51, Bool.false_eq_true, if_false]
                by_cases h60 : jsEq (jsGet m "code") (.num 20060) = true
                · simp only [h60, if_true]
                  exact ⟨rfl, rfl⟩
                · simp only [Bool.not_eq_true] at h60
                  refine ⟨?_, ?_⟩ <;> simp [h60, hcode, hp]
  | wsOpen => simp [BfxApi.resumesInStep] at hnr
  | sendReq d =>
      show (s.send d).paused = true ∧ (s.send d).sentLog = s.sentLog
      rw [send_paused_eq s d hp]
      exact ⟨hp, rfl⟩
  | pingReq =>
      refine ⟨?_, ?_⟩ <;>
        simp [BfxApi.step, BfxApi.ping, BfxApi.send, BfxApi.sendDefers, hp]
  | subscribeReq channel pair prm cb =>
      cases cb with
      | notFn => exact ⟨hp, rfl⟩
      | fn c =>
          refine ⟨?_, ?_⟩ <;>
            simp [BfxApi.step, BfxApi.subscribe, BfxApi.send, BfxApi.sendDefers, hp]
  | unsubscribeReq c =>
      refine ⟨?_, ?_⟩ <;>
        simp [BfxApi.step, BfxApi.unsubscribe, BfxApi.send, BfxApi.sendDefers, hp]
  | closeReq => exact ⟨hp, rfl⟩
  | connectReq => exact ⟨hp, rfl⟩
  | restartReq => exact ⟨hp, rfl⟩

/-- Along any trace that never reaches a `resume()` call, a paused
controller stays paused and its transmission log never grows. -/
theorem paused_trace_invariant :
    ∀ (evs : List Ev) (s : BfxApi), s.paused = true → s.noResumeAlong evs = true →
      (s.run evs).paused = true ∧ (s.run evs).sentLog = s.sentLog := by
  intro evs
  induction evs with
  | nil => intro s hp _; exact ⟨hp, rfl⟩
  | cons e r ih =>
      intro s hp hno
      simp only [BfxApi.noResumeAlong, Bool.and_eq_true, Bool.not_eq_true'] at hno
      have hstep := step_paused_frame s e hp hno.1
      have hrest := ih (s.step e) hstep.1 hno.2
      exact ⟨hrest.1, hrest.2.trans hstep.2⟩

/-- C6.  An inbound info message with code 20060 that the registry does
not consume leaves the controller paused, and along every subsequent
event trace in which no step reaches a `resume()` call — no transport
open event and no unconsumed info message with code 20061 — the
controller stays paused and not a single `send` transmits anything to
the transport (the transmission log never grows). -/
theorem claim_C6_pause_until_resume (s : BfxApi) (m : JsVal) (evs : List Ev)
    (hev : jsEq (jsGet m "event") (.str "info") = true)
    (hcode : jsEq (jsGet m "code") (.num 20060) = true)
    (hunconsumed : (s.expectations.exec m).1 = false) :
    (s.dispatchMsg m).paused = true ∧
    ((s.dispatchMsg m).noResumeAlong evs = true →
      ((s.dispatchMsg m).run evs).paused = true ∧
      ((s.dispatchMsg m).run evs).sentLog = (s.dispatchMsg m).sentLog) := by
  have hm : jsGet m "code" = .num 20060 := jsEq_num_eq _ _ hcode
  have hpause : (s.dispatchMsg m).paused = true := by
    unfold BfxApi.dispatchMsg
    simp only [hunconsumed, Bool.false_eq_true, if_false, hev, if_true]
    unfold BfxApi.processMsgInfo
    rw [hm]
    rfl
  exact ⟨hpause, fun hno => paused_trace_invariant evs (s.dispatchMsg m) hpause hno⟩

/-- The pause directive for the C6 witness. -/
def pauseMsgC6 : JsVal :=
  .obj [("event", .str "info"), ("code", .num 20060)]

/-- Witness for C6: the fresh controller receives the 20060 directive
(consumed by nobody — the registry is empty), becomes paused, and across
a subsequent send request, a ping and a close, nothing is ever
transmitted and it stays paused. -/
theorem claim_C6_witness :
    (BfxApi.init.dispatchMsg pauseMsgC6).paused = true ∧
    ((BfxApi.init.dispatchMsg pauseMsgC6).run
        [.sendReq (.str "x"), .pingReq, .closeReq]).paused = true ∧
    ((BfxApi.init.dispatchMsg pauseMsgC6).run
        [.sendReq (.str "x"), .pingReq, .closeReq]).sentLog = [] := by
  have h := claim_C6_pause_until_resume BfxApi.init pauseMsgC6
    [.sendReq (.str "x"), .pingReq, .closeReq] rfl rfl rfl
  exact ⟨h.1, (h.2 rfl).1, (h.2 rfl).2⟩
